import Mathlib

/-!
Verification of the task scheduler, resource monitor, safety manager,
config manager, email bulk-send and audit log of the automation agent.

Times are modelled as integer seconds; each Python callback is modelled by
an outcome oracle (`true` = returned normally, `false` = raised).
-/

/-- Python truthiness of an `Optional[str]` value: `None` and `""` are falsy. -/
def pyStrTruthy : Option String → Bool
  | Option.none => false
  | Option.some s => !s.isEmpty

/-- The `AutomationTask` dataclass of `main.py`; the callback (`function`
field) is modelled separately as an outcome oracle, and `next_run` is never
read by the code, so it is omitted. -/
structure AutomationTask where
  id : String
  name : String
  description : String
  schedule : Option String
  enabled : Bool
  lastRun : Option Nat
deriving DecidableEq

/-- `should_run_task` of `main.py`: returns `False` iff the task has a
last-run timestamp and `(now - last_run).seconds < 300`.  The `.seconds`
field of a Python `timedelta` is the seconds component after whole days are
removed, i.e. the elapsed seconds reduced modulo 86400. -/
def should_run_task (now : Nat) (task : AutomationTask) : Bool :=
  match task.lastRun with
  | Option.none => true
  | Option.some lr => if (now - lr) % 86400 < 300 then false else true

/-- `execute_task` of `main.py`: the callback runs inside `try`, and
`task.last_run = datetime.now()` executes only after the callback returns,
so a raising callback (`ok = false`) leaves the task unchanged. -/
def execute_task (now : Nat) (ok : Bool) (task : AutomationTask) : AutomationTask :=
  if ok then { task with lastRun := Option.some now } else task

/-- One scheduler-loop visit of a single task (the body of the `for` loop in
`start_task_scheduler`): the callback is invoked iff
`task.enabled and task.schedule` are truthy and `should_run_task` allows it.
Returns the updated task and whether the callback was invoked. -/
def task_tick (now : Nat) (ok : Bool) (task : AutomationTask) : AutomationTask × Bool :=
  if task.enabled && pyStrTruthy task.schedule && should_run_task now task then
    (execute_task now ok task, true)
  else (task, false)

/-- A run of the scheduler loop restricted to one task: a list of
(tick time, callback outcome) pairs yields the final task state and the
invocation flag of each tick. -/
def task_run : List (Nat × Bool) → AutomationTask → AutomationTask × List Bool
  | [], task => (task, [])
  | (now, ok) :: rest, task =>
    let step := task_tick now ok task
    let tail := task_run rest step.1
    (tail.1, step.2 :: tail.2)

/-- One full scheduler tick over the registry (the
`for task in self.tasks.values()` loop), with a per-task-id callback outcome
oracle; returns the updated registry and the ids of the tasks whose callbacks
were invoked, in loop order. -/
def scheduler_tick (now : Nat) (ok : String → Bool) :
    List AutomationTask → List AutomationTask × List String
  | [] => ([], [])
  | task :: rest =>
    let step := task_tick now (ok task.id) task
    let tail := scheduler_tick now ok rest
    (step.1 :: tail.1, if step.2 then task.id :: tail.2 else tail.2)

/-- A run of the scheduler loop over the whole registry: one
(tick time, outcome oracle) pair per tick; returns the final registry and,
for each tick, the ids invoked during that tick. -/
def run_scheduler : List (Nat × (String → Bool)) → List AutomationTask →
    List AutomationTask × List (List String)
  | [], tasks => (tasks, [])
  | (now, ok) :: rest, tasks =>
    let step := scheduler_tick now ok tasks
    let tail := run_scheduler rest step.1
    (tail.1, step.2 :: tail.2)

/-- Spec-side eligibility predicate: enabled, truthy schedule string, and
(no last-run, or elapsed-modulo-24h at least the 300 s cooldown).  Stated
separately from the loop so the scheduler can be compared against it. -/
def eligible (now : Nat) (task : AutomationTask) : Bool :=
  task.enabled && pyStrTruthy task.schedule &&
    (match task.lastRun with
     | Option.none => true
     | Option.some lr => decide (300 ≤ (now - lr) % 86400))

/-! Embedding of `ProcessMonitor.check_system_health` and `create_alert`
from `src/modules/process_monitor.py`.  Metric readings are rationals; the
alert's timestamp and formatted message string are omitted (clock and string
formatting), its discriminating fields are kept. -/

/-- The `SystemAlert` dataclass, without timestamp and message text. -/
structure SystemAlert where
  alert_type : String
  severity : String
  value : Rat
  threshold : Rat
deriving DecidableEq

/-- One sampled set of metric readings seen by `check_system_health`;
temperature sensor entries are flattened to (sensor name, optional current
reading) in iteration order. -/
structure HealthSample where
  cpu_percent : Rat
  memory_percent : Rat
  disk_used : Rat
  disk_total : Rat
  temps : List (String × Option Rat)
  process_count : Nat

/-- `disk_percent = (disk_usage.used / disk_usage.total) * 100`. -/
def disk_percent (s : HealthSample) : Rat := s.disk_used / s.disk_total * 100

/-- `create_alert`: builds the alert and appends it to `self.alerts`. -/
def create_alert (alerts : List SystemAlert) (t sev : String) (v th : Rat) :
    List SystemAlert :=
  alerts ++ [⟨t, sev, v, th⟩]

/-- The temperature branch for one sensor entry:
`if entry.current and entry.current > self.thresholds["temperature"]`
(Python float truthiness: `0.0` is falsy). -/
def temp_alert_of : String × Option Rat → Option SystemAlert
  | (_, Option.none) => Option.none
  | (_, Option.some c) =>
    if c ≠ 0 ∧ 80 < c then
      Option.some ⟨"temperature_high", if c < 90 then "high" else "critical", c, 80⟩
    else Option.none

/-- The nested temperature loops of `check_system_health`, folded over the
flattened entries. -/
def temp_scan (alerts : List SystemAlert) : List (String × Option Rat) → List SystemAlert
  | [] => alerts
  | e :: rest =>
    match temp_alert_of e with
    | Option.some a => temp_scan (alerts ++ [a]) rest
    | Option.none => temp_scan alerts rest

/-- `check_system_health`, with the default thresholds of
`ProcessMonitor.__init__` (cpu 80, memory 85, disk 90, temperature 80,
process_count 1000): each breached check appends one alert, in program
order, to the running alerts list. -/
def check_system_health (s : HealthSample) (alerts : List SystemAlert) :
    List SystemAlert :=
  let a1 := if 80 < s.cpu_percent then
      create_alert alerts "cpu_high" (if s.cpu_percent < 95 then "high" else "critical")
        s.cpu_percent 80
    else alerts
  let a2 := if 85 < s.memory_percent then
      create_alert a1 "memory_high" (if s.memory_percent < 95 then "high" else "critical")
        s.memory_percent 85
    else a1
  let a3 := if 90 < disk_percent s then
      create_alert a2 "disk_high" (if disk_percent s < 95 then "high" else "critical")
        (disk_percent s) 90
    else a2
  let a4 := temp_scan a3 s.temps
  if 1000 < s.process_count then
    create_alert a4 "process_count_high" "medium" (s.process_count : Rat) 1000
  else a4

/-- Whether a flattened temperature entry breaches the threshold. -/
def temp_breach (e : String × Option Rat) : Bool :=
  match e.2 with
  | Option.none => false
  | Option.some c => decide (c ≠ 0 ∧ 80 < c)

/-! Embedding of `SafetyManager.is_safe_command` from
`src/modules/safety_manager.py`.  Command strings are lists of characters so
that `.lower()` and substring containment are elementwise. -/

/-- The result dict of `is_safe_command`; `reason` is the matched blocked
entry (the constant message prefix around it is dropped). -/
structure SafetyResult where
  safe : Bool
  warnings : List (List Char)
  blocked : Bool
  reason : List Char
deriving DecidableEq

/-- `str.lower()` on a command (ASCII-faithful). -/
def lowerStr (s : List Char) : List Char := s.map Char.toLower

/-- Whether the first list is an initial segment of the second. -/
def leadsList : List Char → List Char → Bool
  | [], _ => true
  | _ :: _, [] => false
  | a :: as, b :: bs => a == b && leadsList as bs

/-- Python's substring test `needle in hay`. -/
def containsSub (needle : List Char) : List Char → Bool
  | [] => needle.isEmpty
  | c :: rest => leadsList needle (c :: rest) || containsSub needle rest

/-- `self.safety_config['blocked_commands']`. -/
def blocked_commands : List (List Char) :=
  ["rm -rf /".toList, "format".toList, "del /s /q C:\\".toList,
   "shutdown".toList, "reboot".toList]

/-- The `dangerous_patterns` literal inside `is_safe_command`. -/
def dangerous_patterns : List (List Char) :=
  ["rm -rf".toList, "del /s".toList, "format".toList, "fdisk".toList,
   "dd if=".toList, "shutdown".toList, "reboot".toList, "halt".toList,
   "poweroff".toList, "taskkill /f".toList, "kill -9".toList, "killall".toList]

/-- File-deletion operator list of the third check. -/
def deletion_ops : List (List Char) :=
  ["rm ".toList, "del ".toList, "rmdir ".toList, "rd ".toList]

/-- Permission-change operator list of the fourth check. -/
def permission_ops : List (List Char) :=
  ["chmod ".toList, "chown ".toList, "attrib ".toList]

/-- The first loop of `is_safe_command`: on the first blocked entry contained
in the lowered command, set `safe = False`, `blocked = True`, record the
reason and `break`. -/
def blocked_scan (cmdLower : List Char) : List (List Char) → SafetyResult → SafetyResult
  | [], r => r
  | b :: rest, r =>
    if containsSub (lowerStr b) cmdLower then
      { r with safe := false, blocked := true, reason := b }
    else blocked_scan cmdLower rest r

/-- The second loop of `is_safe_command`: every dangerous pattern contained
in the lowered command appends a warning and, when not already blocked,
clears `safe`. -/
def dangerous_scan (cmdLower : List Char) : List (List Char) → SafetyResult → SafetyResult
  | [], r => r
  | p :: rest, r =>
    if containsSub p cmdLower then
      dangerous_scan cmdLower rest
        { r with warnings := r.warnings ++ [p],
                 safe := if r.blocked then r.safe else false }
    else dangerous_scan cmdLower rest r

/-- `SafetyManager.is_safe_command`: the initial all-clear result threaded
through the blocked-command loop, the dangerous-pattern loop, and the two
`any(...)` warning checks. -/
def is_safe_command (cmd : List Char) : SafetyResult :=
  let cl := lowerStr cmd
  let r1 := blocked_scan cl blocked_commands ⟨true, [], false, []⟩
  let r2 := dangerous_scan cl dangerous_patterns r1
  let r3 := if deletion_ops.any (fun op => containsSub op cl) then
      { r2 with warnings := r2.warnings ++ ["file deletion".toList] }
    else r2
  if permission_ops.any (fun op => containsSub op cl) then
    { r3 with warnings := r3.warnings ++ ["file permissions".toList] }
  else r3

/-! Embedding of `ConfigManager.get` / `ConfigManager.set` from
`src/modules/config_manager.py`.  Configuration data is JSON-like; Python
dicts become ordered association lists (existing keys keep their slot, new
keys are appended). -/

/-- A Python value as stored in the configuration tree; strings are lists of
characters, as elsewhere in this development. -/
inductive PyVal where
  | dict : List (List Char × PyVal) → PyVal
  | str : List Char → PyVal
  | int : Int → PyVal
  | bool : Bool → PyVal
  | pynone : PyVal

/-- Python's `key.split('.')`: cut at every dot, keeping empty segments
(`"".split('.') == [""]`). -/
def splitDots : List Char → List (List Char)
  | [] => [[]]
  | c :: rest =>
    let r := splitDots rest
    if c = '.' then [] :: r
    else
      match r with
      | [] => [[c]]
      | h :: t => (c :: h) :: t

/-- Dict lookup (`value[k]` after a `k in value` test). -/
def assocLookup : List (List Char × PyVal) → List Char → Option PyVal
  | [], _ => Option.none
  | (k, v) :: rest, key => if k = key then Option.some v else assocLookup rest key

/-- Dict store `config[k] = v`: replace in place if present, else append. -/
def assocSet : List (List Char × PyVal) → List Char → PyVal → List (List Char × PyVal)
  | [], key, v => [(key, v)]
  | (k, w) :: rest, key, v =>
    if k = key then (k, v) :: rest else (k, w) :: assocSet rest key v

/-- The navigation-and-assign core of `ConfigManager.set` over the split key
path.  `none` models the `except` branch returning `False`: indexing an
empty path, or reaching a non-dict where membership testing or item
assignment would raise.  Missing intermediate keys get a fresh `{}`. -/
def setKeys : List (List Char) → PyVal → PyVal → Option PyVal
  | [], _, _ => Option.none
  | [k], v, PyVal.dict entries => Option.some (PyVal.dict (assocSet entries k v))
  | [_], _, _ => Option.none
  | k :: k2 :: ks, v, PyVal.dict entries =>
    match setKeys (k2 :: ks) v ((assocLookup entries k).getD (PyVal.dict [])) with
    | Option.some child => Option.some (PyVal.dict (assocSet entries k child))
    | Option.none => Option.none
  | _ :: _ :: _, _, _ => Option.none

/-- The navigation core of `ConfigManager.get`: descend while the current
value `isinstance(value, dict)` and holds the key, else report the default
(`none`). -/
def getKeys : List (List Char) → PyVal → Option PyVal
  | [], v => Option.some v
  | k :: ks, PyVal.dict entries =>
    match assocLookup entries k with
    | Option.some v => getKeys ks v
    | Option.none => Option.none
  | _ :: _, _ => Option.none

/-- `ConfigManager.set(key, value)`: split the dotted key and assign;
`some root` models `return True` with the mutated configuration, `none`
models `return False`. -/
def ConfigManager.set (key : List Char) (v : PyVal) (root : PyVal) : Option PyVal :=
  setKeys (splitDots key) v root

/-- `ConfigManager.get(key, default)`: split the dotted key and walk down,
returning `default` on any miss. -/
def ConfigManager.get (key : List Char) (root : PyVal) (default : PyVal) : PyVal :=
  match getKeys (splitDots key) root with
  | Option.some v => v
  | Option.none => default

/-! Embedding of `EmailAutomation.send_bulk_email` from
`src/modules/email_automation.py`.  `send_email` returns a boolean and
catches its own exceptions; its outcome for the i-th send call is an oracle
indexed by call number, so repeated recipients may get different outcomes. -/

/-- The result dict of `send_bulk_email`, plus the number of `send_email`
calls made (to state that each recipient is attempted exactly once). -/
structure BulkResult where
  success : List String
  failed : List String
  total : Nat
  attempts : Nat
deriving DecidableEq

/-- The recipient loop of `send_bulk_email`: one `send_email` call per
recipient, appending the recipient to `success` or `failed` by outcome. -/
def bulk_loop (ok : Nat → Bool) : Nat → List String → List String × List String × Nat
  | _, [] => ([], [], 0)
  | i, r :: rest =>
    let tail := bulk_loop ok (i + 1) rest
    if ok i then (r :: tail.1, tail.2.1, tail.2.2 + 1)
    else (tail.1, r :: tail.2.1, tail.2.2 + 1)

/-- `send_bulk_email`: `total` is `len(recipients)` computed up front; the
loop then partitions the recipients. -/
def send_bulk_email (ok : Nat → Bool) (recipients : List String) : BulkResult :=
  let l := bulk_loop ok 0 recipients
  ⟨l.1, l.2.1, recipients.length, l.2.2⟩

/-! Embedding of `SafetyManager._log_action` from
`src/modules/safety_manager.py`.  Log entries are opaque. -/

/-- `_log_action`: skip when `log_all_actions` is off; otherwise append the
entry and, when the length exceeds 1000, keep only the last 1000
(`self.action_log[-1000:]`). -/
def log_action {α : Type} (logAll : Bool) (e : α) (log : List α) : List α :=
  if logAll then
    let l := log ++ [e]
    if 1000 < l.length then l.drop (l.length - 1000) else l
  else log

/-! Concrete registry states used to evaluate the theorems. -/

/-- An enabled task registered without a schedule string
(`register_task` defaults `schedule` to `None`). -/
def taskNoSchedule : AutomationTask :=
  ⟨"no_schedule", "No schedule", "", Option.none, true, Option.none⟩

/-- An enabled task last run at time 0, observed one day and ten seconds
later. -/
def taskDayOld : AutomationTask :=
  ⟨"day_old", "Day old", "", Option.some "*/5 * * * *", true, Option.some 0⟩

/-- An enabled task that has never run. -/
def taskFresh : AutomationTask :=
  ⟨"fresh", "Fresh", "", Option.some "*/5 * * * *", true, Option.none⟩

/-- A disabled task. -/
def taskDisabled : AutomationTask :=
  ⟨"disabled", "Disabled", "", Option.some "0 2 * * *", false, Option.none⟩

/-! ### Theorems -/

/-- C7 (corrected): `execute_task` updates `last_run` only when the callback
returns normally; a raising callback leaves the task — in particular its
`last_run` — unchanged. -/
theorem c7_execute_task_last_run (now : Nat) (task : AutomationTask) :
    (execute_task now true task).lastRun = Option.some now ∧
    execute_task now false task = task := by
  constructor <;> simp [execute_task]

/-- C7 counterexample to the claim as stated: an invocation at time 5 whose
callback raises leaves `last_run` at `None`, which does not hold the time of
that invocation. -/
theorem c7_counterexample :
    (execute_task 5 false taskFresh).lastRun = Option.none ∧
    (execute_task 5 false taskFresh).lastRun ≠ Option.some 5 := by
  constructor <;> simp [execute_task, taskFresh]

/-- C9 (confirmed): for a task with a last-run timestamp, `should_run_task`
returns `False` exactly when the elapsed seconds reduced modulo 24 hours
(the `.seconds` component of the timedelta) are under 300. -/
theorem c9_cooldown_mod_day (now lr : Nat) (task : AutomationTask)
    (h : task.lastRun = Option.some lr) (hle : lr ≤ now) :
    should_run_task now task = false ↔ (now - lr) % 86400 < 300 := by
  have _ := hle
  simp only [should_run_task, h]
  split <;> simp_all

/-- C9 witness: a task last run one day and ten seconds ago (elapsed 86410 s,
far beyond the 300 s cooldown) is nevertheless judged ineligible. -/
theorem c9_cooldown_mod_day_witness :
    300 < 86410 - 0 ∧ should_run_task 86410 taskDayOld = false :=
  ⟨by decide,
   (c9_cooldown_mod_day 86410 0 taskDayOld (by decide) (by decide)).mpr (by decide)⟩

/-- C10 (confirmed): `_log_action` keeps the action log at no more than 1000
entries, and when logging would exceed the bound it drops the oldest entries
(the result is the suffix of `log ++ [e]` past the first
`log.length + 1 - 1000` entries). -/
theorem c10_log_action_bounded {α : Type} (logAll : Bool) (e : α) (log : List α)
    (h : log.length ≤ 1000) :
    (log_action logAll e log).length ≤ 1000 ∧
    (logAll = true →
      log_action logAll e log = (log ++ [e]).drop (log.length + 1 - 1000)) := by
  unfold log_action
  cases logAll with
  | false => simpa using h
  | true =>
    simp only [if_true]
    constructor
    · split
      · simp only [List.length_drop, List.length_append, List.length_singleton]
        omega
      · simp_all [List.length_append]
    · intro _
      split
      · simp [List.length_append]
      · have h0 : log.length + 1 - 1000 = 0 := by
          simp only [List.length_append, List.length_singleton] at *
          omega
        simp [h0]

/-- C10 witness: logging into an empty log keeps the bound and equals the
drop-form append. -/
theorem c10_log_action_bounded_witness :
    ([] : List Nat).length ≤ 1000 ∧
    ((log_action true (7 : Nat) []).length ≤ 1000 ∧
      (true = true →
        log_action true (7 : Nat) [] =
          (([] : List Nat) ++ [7]).drop (([] : List Nat).length + 1 - 1000))) :=
  ⟨by decide, c10_log_action_bounded true 7 [] (by decide)⟩

/-- `task_tick` never changes a task's id or enabled flag
(`execute_task` only touches `last_run`). -/
theorem task_tick_fields (now : Nat) (ok : Bool) (t : AutomationTask) :
    (task_tick now ok t).1.id = t.id ∧ (task_tick now ok t).1.enabled = t.enabled := by
  unfold task_tick execute_task
  split
  · split <;> simp
  · simp

/-- An invoked task was enabled at tick time. -/
theorem task_tick_flag_enabled (now : Nat) (ok : Bool) (t : AutomationTask)
    (h : (task_tick now ok t).2 = true) : t.enabled = true := by
  unfold task_tick at h
  split at h
  · rename_i hc
    simp only [Bool.and_eq_true] at hc
    exact hc.1.1
  · simp at h

/-- A scheduler tick preserves the (id, enabled) projection of the registry. -/
theorem scheduler_tick_pairs (now : Nat) (ok : String → Bool) (ts : List AutomationTask) :
    ((scheduler_tick now ok ts).1).map (fun u => (u.id, u.enabled)) =
      ts.map (fun u => (u.id, u.enabled)) := by
  induction ts with
  | nil => rfl
  | cons t rest ih =>
    have h := task_tick_fields now (ok t.id) t
    simp only [scheduler_tick, List.map_cons, ih, h.1, h.2]

/-- Every id invoked during a scheduler tick belongs to a registry task whose
own visit raised the invocation flag. -/
theorem mem_scheduler_tick_snd (now : Nat) (ok : String → Bool)
    (ts : List AutomationTask) (x : String)
    (hx : x ∈ (scheduler_tick now ok ts).2) :
    ∃ u, u ∈ ts ∧ u.id = x ∧ (task_tick now (ok u.id) u).2 = true := by
  induction ts with
  | nil => simp [scheduler_tick] at hx
  | cons t rest ih =>
    cases hstep : (task_tick now (ok t.id) t).2 with
    | false =>
      simp only [scheduler_tick, hstep] at hx
      simp only [Bool.false_eq_true, if_false] at hx
      obtain ⟨u, hu, hid, hfl⟩ := ih hx
      exact ⟨u, List.mem_cons_of_mem _ hu, hid, hfl⟩
    | true =>
      simp only [scheduler_tick, hstep, if_true] at hx
      rcases List.mem_cons.mp hx with h | h
      · exact ⟨t, List.mem_cons_self _ _, h.symm, hstep⟩
      · obtain ⟨u, hu, hid, hfl⟩ := ih h
        exact ⟨u, List.mem_cons_of_mem _ hu, hid, hfl⟩

/-- In a pair list whose first components are distinct, a key determines its
associated value. -/
theorem pair_list_unique {β : Type} :
    ∀ (l : List (String × β)) (k : String) (a b : β),
      (l.map Prod.fst).Nodup → (k, a) ∈ l → (k, b) ∈ l → a = b := by
  intro l
  induction l with
  | nil => intro k a b _ ha _; simp at ha
  | cons e rest ih =>
    intro k a b hnd ha hb
    obtain ⟨k0, v0⟩ := e
    simp only [List.map_cons, List.nodup_cons] at hnd
    rcases List.mem_cons.mp ha with h1 | h1 <;> rcases List.mem_cons.mp hb with h2 | h2
    · injection h1 with hk1 hv1
      injection h2 with hk2 hv2
      rw [hv1, hv2]
    · exfalso
      injection h1 with hk1 hv1
      apply hnd.1
      rw [← hk1]
      exact List.mem_map_of_mem Prod.fst h2
    · exfalso
      injection h2 with hk2 hv2
      apply hnd.1
      rw [← hk2]
      exact List.mem_map_of_mem Prod.fst h1
    · exact ih k a b hnd.2 h1 h2

/-- Core of C2: a registry entry recorded as disabled is never invoked along
any run of the scheduler loop. -/
theorem run_scheduler_disabled_aux (x : String) :
    ∀ (trace : List (Nat × (String → Bool))) (ts : List AutomationTask),
      ((ts.map (fun u => (u.id, u.enabled))).map Prod.fst).Nodup →
      (x, false) ∈ ts.map (fun u => (u.id, u.enabled)) →
      ((run_scheduler trace ts).2.all fun l => decide (x ∉ l)) = true := by
  intro trace
  induction trace with
  | nil => intro ts _ _; rfl
  | cons p rest ih =>
    obtain ⟨now, ok⟩ := p
    intro ts hnd hmem
    simp only [run_scheduler, List.all_cons, Bool.and_eq_true]
    constructor
    · rw [decide_eq_true_eq]
      intro hx
      obtain ⟨u, hu, hid, hfl⟩ := mem_scheduler_tick_snd now ok ts x hx
      have hen : u.enabled = true := task_tick_flag_enabled now (ok u.id) u hfl
      have hmem2 : (x, true) ∈ ts.map (fun u => (u.id, u.enabled)) := by
        have hm := List.mem_map_of_mem (fun u => (u.id, u.enabled)) hu
        simp only at hm
        rw [hid, hen] at hm
        exact hm
      exact Bool.false_ne_true (pair_list_unique _ x false true hnd hmem hmem2)
    · have hp := scheduler_tick_pairs now ok ts
      exact ih _ (by rw [hp]; exact hnd) (by rw [hp]; exact hmem)

/-- C2 (confirmed): a task whose enabled flag is False is never invoked by
the scheduler loop, on any tick of any run, in any registry with distinct
task ids (the Python registry is a dict keyed by id). -/
theorem c2_disabled_never_invoked (trace : List (Nat × (String → Bool)))
    (tasks : List AutomationTask) (t : AutomationTask)
    (hnd : (tasks.map AutomationTask.id).Nodup) (hmem : t ∈ tasks)
    (hdis : t.enabled = false) :
    ((run_scheduler trace tasks).2.all fun l => decide (t.id ∉ l)) = true := by
  apply run_scheduler_disabled_aux
  · rw [List.map_map]
    exact hnd
  · have hm := List.mem_map_of_mem (fun u => (u.id, u.enabled)) hmem
    simp only at hm
    rw [hdis] at hm
    exact hm

/-- C2 witness: in a two-task registry the disabled task's id never appears
among the invocations of a two-tick run. -/
theorem c2_disabled_never_invoked_witness :
    ([taskFresh, taskDisabled].map AutomationTask.id).Nodup ∧
    taskDisabled ∈ [taskFresh, taskDisabled] ∧ taskDisabled.enabled = false ∧
    ((run_scheduler [((0 : Nat), fun _ => true), (400, fun _ => true)]
        [taskFresh, taskDisabled]).2.all fun l => decide (taskDisabled.id ∉ l)) = true :=
  ⟨by decide, by decide, by decide,
   c2_disabled_never_invoked _ _ _ (by decide) (by decide) (by decide)⟩

/-- A tick that invokes a task whose callback returns normally stamps
`last_run` with the tick time. -/
theorem task_tick_success_lastRun (now : Nat) (t : AutomationTask)
    (h : (task_tick now true t).2 = true) :
    (task_tick now true t).1.lastRun = Option.some now := by
  by_cases hc : (t.enabled && pyStrTruthy t.schedule && should_run_task now t) = true
  · simp [task_tick, hc, execute_task]
  · simp [task_tick, hc] at h

/-- A task stamped at time `nw` is left untouched by any tick inside the
following 300 seconds. -/
theorem task_tick_cooled (u nw : Nat) (ok : Bool) (s : AutomationTask)
    (hlr : s.lastRun = Option.some nw) (h1 : nw ≤ u) (h2 : u < nw + 300) :
    task_tick u ok s = (s, false) := by
  have hs : should_run_task u s = false := by
    simp only [should_run_task, hlr]
    rw [if_pos]
    have hm : (u - nw) % 86400 = u - nw := Nat.mod_eq_of_lt (by omega)
    rw [hm]
    omega
  simp [task_tick, hs]

/-- A task stamped at time `nw` is never invoked along a run whose tick times
all fall inside the following 300 seconds. -/
theorem task_run_cooled (nw : Nat) :
    ∀ (trace : List (Nat × Bool)) (s : AutomationTask),
      s.lastRun = Option.some nw → (∀ p ∈ trace, nw ≤ p.1 ∧ p.1 < nw + 300) →
      task_run trace s = (s, List.replicate trace.length false) := by
  intro trace
  induction trace with
  | nil => intro s _ _; rfl
  | cons p rest ih =>
    obtain ⟨u, okk⟩ := p
    intro s hlr hts
    have hp := hts (u, okk) (List.mem_cons_self _ _)
    have htick := task_tick_cooled u nw okk s hlr hp.1 hp.2
    have htail := ih s hlr (fun q hq => hts q (List.mem_cons_of_mem _ hq))
    simp only [task_run, htick, htail, List.length_cons, List.replicate_succ]

/-- C3 (corrected): after a tick at time `now` invokes the task and its
callback returns normally, no tick whose time lies within the 300-second
window after `now` invokes the task again. -/
theorem c3_cooldown_after_success (t : AutomationTask) (now : Nat)
    (trace : List (Nat × Bool))
    (hrun : (task_tick now true t).2 = true)
    (htimes : ∀ p ∈ trace, now ≤ p.1 ∧ p.1 < now + 300) :
    (task_run trace (task_tick now true t).1).2 = List.replicate trace.length false := by
  have hlr := task_tick_success_lastRun now t hrun
  rw [task_run_cooled now trace _ hlr htimes]

/-- C3 witness: a successful run at time 1000 suppresses ticks at times 1100
and 1299. -/
theorem c3_cooldown_after_success_witness :
    (task_tick 1000 true taskFresh).2 = true ∧
    (task_run [((1100 : Nat), true), (1299, true)] (task_tick 1000 true taskFresh).1).2 =
      List.replicate 2 false :=
  ⟨by decide, c3_cooldown_after_success taskFresh 1000 _ (by decide) (by decide)⟩

/-- C3 counterexample to the claim as stated: the tick at time 0 invokes the
task's callback, which raises; `last_run` is therefore not updated, and the
tick at time 60 — well inside the 300-second window after that run —
invokes the callback again. -/
theorem c3_counterexample :
    (task_run [((0 : Nat), false), (60, false)] taskFresh).2 = [true, true] ∧
    (60 : Nat) < 0 + 300 := by
  constructor
  · rfl
  · decide

/-- `should_run_task` agrees with the cooldown part of `eligible`. -/
theorem should_run_task_eq_eligible_cd (now : Nat) (t : AutomationTask) :
    should_run_task now t =
      (match t.lastRun with
       | Option.none => true
       | Option.some lr => decide (300 ≤ (now - lr) % 86400)) := by
  cases h : t.lastRun with
  | none => simp [should_run_task, h]
  | some lr =>
    simp only [should_run_task, h]
    by_cases hx : (now - lr) % 86400 < 300
    · rw [if_pos hx]
      symm
      rw [decide_eq_false_iff_not]
      omega
    · rw [if_neg hx]
      symm
      rw [decide_eq_true_eq]
      omega

/-- A tick's invocation flag for a task is exactly its eligibility. -/
theorem task_tick_flag_eq_eligible (now : Nat) (ok : Bool) (t : AutomationTask) :
    (task_tick now ok t).2 = eligible now t := by
  have he : eligible now t =
      (t.enabled && pyStrTruthy t.schedule && should_run_task now t) := by
    unfold eligible
    rw [should_run_task_eq_eligible_cd]
  rw [he]
  by_cases hc : (t.enabled && pyStrTruthy t.schedule && should_run_task now t) = true
  · simp [task_tick, hc]
  · rw [Bool.not_eq_true] at hc
    simp [task_tick, hc]

/-- C1 (corrected): a scheduler tick invokes exactly the tasks that are
enabled, carry a non-None non-empty schedule string, and either have no
last-run timestamp or an elapsed-time-modulo-24-hours of at least 300
seconds; the content of the schedule string is never parsed, only its
truthiness is tested. -/
theorem c1_scheduler_eligibility (now : Nat) (ok : String → Bool)
    (tasks : List AutomationTask) :
    (scheduler_tick now ok tasks).2 =
      (tasks.filter (eligible now)).map AutomationTask.id := by
  induction tasks with
  | nil => rfl
  | cons t rest ih =>
    simp only [scheduler_tick, List.filter_cons]
    rw [task_tick_flag_eq_eligible now (ok t.id) t]
    by_cases he : eligible now t = true
    · simp [he, ih]
    · rw [Bool.not_eq_true] at he
      simp [he, ih]

/-- C1 counterexample to the claim as stated: both registry tasks are
enabled and satisfy the claim's eligibility rule (the first has no last-run
timestamp, the second's elapsed time 86410 s exceeds the 300 s cooldown),
yet a tick at time 86410 invokes neither — the first because its schedule
string is `None`, the second because its elapsed time reduced modulo 24
hours is 10 s. -/
theorem c1_counterexample :
    taskNoSchedule.enabled = true ∧ taskNoSchedule.lastRun = Option.none ∧
    taskDayOld.enabled = true ∧ taskDayOld.lastRun = Option.some 0 ∧
    300 < 86410 - 0 ∧
    (scheduler_tick 86410 (fun _ => true) [taskNoSchedule, taskDayOld]).2 = [] := by
  refine ⟨rfl, rfl, rfl, rfl, by decide, ?_⟩
  rfl

/-- Tally invariants of the recipient loop, for any starting call index. -/
theorem bulk_loop_spec (ok : Nat → Bool) :
    ∀ (recipients : List String) (i : Nat),
      (bulk_loop ok i recipients).1.length + (bulk_loop ok i recipients).2.1.length =
        recipients.length ∧
      (bulk_loop ok i recipients).2.2 = recipients.length ∧
      (∀ x : String,
        (bulk_loop ok i recipients).1.count x + (bulk_loop ok i recipients).2.1.count x =
          recipients.count x) ∧
      (∀ x : String,
        (x ∈ (bulk_loop ok i recipients).1 ∨ x ∈ (bulk_loop ok i recipients).2.1) ↔
          x ∈ recipients) := by
  intro recipients
  induction recipients with
  | nil =>
    intro i
    refine ⟨rfl, rfl, fun x => rfl, fun x => ?_⟩
    simp [bulk_loop]
  | cons r rest ih =>
    intro i
    obtain ⟨hlen, hatt, hcount, hmem⟩ := ih (i + 1)
    cases hok : ok i with
    | true =>
      simp only [bulk_loop, hok, if_true]
      refine ⟨?_, ?_, fun x => ?_, fun x => ?_⟩
      · simp only [List.length_cons]; omega
      · simp only [List.length_cons]; omega
      · have := hcount x
        simp only [List.count_cons]
        split <;> omega
      · rw [List.mem_cons, List.mem_cons, or_assoc, hmem x]
    | false =>
      simp only [bulk_loop, hok, Bool.false_eq_true, if_false]
      refine ⟨?_, ?_, fun x => ?_, fun x => ?_⟩
      · simp only [List.length_cons]; omega
      · simp only [List.length_cons]; omega
      · have := hcount x
        simp only [List.count_cons]
        split <;> omega
      · rw [List.mem_cons, List.mem_cons, ← or_assoc, or_comm (a := x ∈ (bulk_loop ok (i+1) rest).1), or_assoc, hmem x]

/-- C8 (confirmed): `send_bulk_email` partitions the input recipients into
the `success` and `failed` lists — every occurrence of a recipient lands in
exactly one of the two, their lengths sum to the input length, `total` is
the input length, and exactly one `send_email` call is made per recipient
(no retries). -/
theorem c8_bulk_tally (ok : Nat → Bool) (recipients : List String) :
    (send_bulk_email ok recipients).total = recipients.length ∧
    (send_bulk_email ok recipients).attempts = recipients.length ∧
    (send_bulk_email ok recipients).success.length +
      (send_bulk_email ok recipients).failed.length = recipients.length ∧
    (∀ x : String,
      (send_bulk_email ok recipients).success.count x +
        (send_bulk_email ok recipients).failed.count x = recipients.count x) ∧
    (∀ x : String,
      (x ∈ (send_bulk_email ok recipients).success ∨
        x ∈ (send_bulk_email ok recipients).failed) ↔ x ∈ recipients) := by
  obtain ⟨hlen, hatt, hcount, hmem⟩ := bulk_loop_spec ok recipients 0
  exact ⟨rfl, hatt, hlen, hcount, hmem⟩

/-- Looking up a key right after storing it yields the stored value. -/
theorem assocLookup_assocSet (entries : List (List Char × PyVal)) (k : List Char) (v : PyVal) :
    assocLookup (assocSet entries k v) k = Option.some v := by
  induction entries with
  | nil => simp [assocSet, assocLookup]
  | cons e rest ih =>
    obtain ⟨k0, w⟩ := e
    by_cases h : k0 = k
    · simp [assocSet, assocLookup, h]
    · simp [assocSet, assocLookup, h, ih]

/-- After a successful `setKeys` along a key path, `getKeys` along the same
path finds the stored value. -/
theorem setKeys_getKeys :
    ∀ (ks : List (List Char)) (v root root2 : PyVal),
      setKeys ks v root = Option.some root2 → getKeys ks root2 = Option.some v := by
  intro ks
  induction ks with
  | nil => intro v root root2 h; simp [setKeys] at h
  | cons k ks ih =>
    intro v root root2 h
    cases ks with
    | nil =>
      cases root with
      | dict entries =>
        simp only [setKeys, Option.some.injEq] at h
        rw [← h]
        simp [getKeys, assocLookup_assocSet]
      | str a => simp [setKeys] at h
      | int a => simp [setKeys] at h
      | bool a => simp [setKeys] at h
      | pynone => simp [setKeys] at h
    | cons k2 ks2 =>
      cases root with
      | dict entries =>
        simp only [setKeys] at h
        cases hc : setKeys (k2 :: ks2) v ((assocLookup entries k).getD (PyVal.dict [])) with
        | none => rw [hc] at h; simp at h
        | some child =>
          rw [hc] at h
          simp only [Option.some.injEq] at h
          rw [← h]
          simp only [getKeys, assocLookup_assocSet]
          exact ih v _ child hc
      | str a => simp [setKeys] at h
      | int a => simp [setKeys] at h
      | bool a => simp [setKeys] at h
      | pynone => simp [setKeys] at h

/-- C6 (confirmed): whenever `ConfigManager.set(key, value)` succeeds
(returns True, leaving the configuration in state `root2`),
`ConfigManager.get(key)` on that state returns the same value, for any
default. -/
theorem c6_config_roundtrip (key : List Char) (v : PyVal) (root root2 : PyVal)
    (h : ConfigManager.set key v root = Option.some root2) (default : PyVal) :
    ConfigManager.get key root2 default = v := by
  unfold ConfigManager.get
  rw [setKeys_getKeys (splitDots key) v root root2 h]

/-- C6 witness: setting `email.smtp_port` to 587 in an empty configuration
succeeds, and reading it back returns 587. -/
theorem c6_config_roundtrip_witness :
    ConfigManager.set "email.smtp_port".toList (PyVal.int 587) (PyVal.dict []) =
      Option.some
        (PyVal.dict [("email".toList, PyVal.dict [("smtp_port".toList, PyVal.int 587)])]) ∧
    ConfigManager.get "email.smtp_port".toList
      (PyVal.dict [("email".toList, PyVal.dict [("smtp_port".toList, PyVal.int 587)])])
      PyVal.pynone = PyVal.int 587 :=
  ⟨rfl,
   c6_config_roundtrip "email.smtp_port".toList (PyVal.int 587) (PyVal.dict []) _ rfl
     PyVal.pynone⟩


/-- If some entry of the scanned blocklist is contained in the lowered
command, the blocked-command loop leaves `safe = False`, `blocked = True`. -/
theorem blocked_scan_hit (cl : List Char) :
    ∀ (bs : List (List Char)) (r : SafetyResult) (b : List Char),
      b ∈ bs → containsSub (lowerStr b) cl = true →
      (blocked_scan cl bs r).safe = false ∧ (blocked_scan cl bs r).blocked = true := by
  intro bs
  induction bs with
  | nil => intro r b hb _; simp at hb
  | cons b0 rest ih =>
    intro r b hb hsub
    by_cases h0 : containsSub (lowerStr b0) cl = true
    · simp [blocked_scan, h0]
    · rcases List.mem_cons.mp hb with h | h
      · rw [h] at hsub; exact absurd hsub h0
      · rw [Bool.not_eq_true] at h0
        simp only [blocked_scan, h0, Bool.false_eq_true, if_false]
        exact ih r b h hsub

/-- The dangerous-pattern loop never resets `blocked` and never turns an
unsafe result safe again. -/
theorem dangerous_scan_preserves (cl : List Char) :
    ∀ (ps : List (List Char)) (r : SafetyResult), r.safe = false →
      (dangerous_scan cl ps r).safe = false ∧
      (dangerous_scan cl ps r).blocked = r.blocked := by
  intro ps
  induction ps with
  | nil => intro r hsafe; exact ⟨hsafe, rfl⟩
  | cons p rest ih =>
    intro r hsafe
    by_cases hp : containsSub p cl = true
    · simp only [dangerous_scan, hp, if_true]
      have hr := ih
        { r with warnings := r.warnings ++ [p],
                 safe := if r.blocked then r.safe else false }
        (by cases hbl : r.blocked <;> simp [hsafe])
      exact ⟨hr.1, hr.2⟩
    · rw [Bool.not_eq_true] at hp
      simp only [dangerous_scan, hp, Bool.false_eq_true, if_false]
      exact ih r hsafe

/-- C5 (confirmed): any command containing a configured blocked entry as a
substring, case-insensitively, is denied by `is_safe_command`:
`safe = False` and `blocked = True`. -/
theorem c5_blocked_substring_denied (cmd b : List Char)
    (hb : b ∈ blocked_commands)
    (hsub : containsSub (lowerStr b) (lowerStr cmd) = true) :
    (is_safe_command cmd).safe = false ∧ (is_safe_command cmd).blocked = true := by
  have h1 := blocked_scan_hit (lowerStr cmd) blocked_commands
    ⟨true, [], false, []⟩ b hb hsub
  have h2 := dangerous_scan_preserves (lowerStr cmd) dangerous_patterns
    (blocked_scan (lowerStr cmd) blocked_commands ⟨true, [], false, []⟩) h1.1
  have hblocked : (dangerous_scan (lowerStr cmd) dangerous_patterns
      (blocked_scan (lowerStr cmd) blocked_commands ⟨true, [], false, []⟩)).blocked = true := by
    rw [h2.2]; exact h1.2
  simp only [is_safe_command]
  split <;> split <;> simp_all

/-- C5 witness: `"sudo SHUTDOWN -r now"` contains the blocked entry
`"shutdown"` case-insensitively and is denied. -/
theorem c5_blocked_substring_denied_witness :
    "shutdown".toList ∈ blocked_commands ∧
    containsSub (lowerStr "shutdown".toList) (lowerStr "sudo SHUTDOWN -r now".toList) = true ∧
    (is_safe_command "sudo SHUTDOWN -r now".toList).safe = false ∧
    (is_safe_command "sudo SHUTDOWN -r now".toList).blocked = true :=
  ⟨by decide, by decide,
   (c5_blocked_substring_denied "sudo SHUTDOWN -r now".toList "shutdown".toList
     (by decide) (by decide)).1,
   (c5_blocked_substring_denied "sudo SHUTDOWN -r now".toList "shutdown".toList
     (by decide) (by decide)).2⟩

/-- A conditional append of one alert, rewritten to append a conditional
singleton. -/
theorem cond_append (c : Prop) [Decidable c] (acc : List SystemAlert) (x : SystemAlert) :
    (if c then acc ++ [x] else acc) = acc ++ (if c then [x] else []) := by
  split <;> simp

/-- The temperature fold appends exactly the alerts of the breaching
entries, in order. -/
theorem temp_scan_eq :
    ∀ (l : List (String × Option Rat)) (acc : List SystemAlert),
      temp_scan acc l = acc ++ l.filterMap temp_alert_of := by
  intro l
  induction l with
  | nil => intro acc; simp [temp_scan]
  | cons e rest ih =>
    intro acc
    cases he : temp_alert_of e with
    | none => simp [temp_scan, he, List.filterMap_cons, ih]
    | some a => simp [temp_scan, he, List.filterMap_cons, ih]

/-- Every temperature alert carries the `temperature_high` type. -/
theorem temp_filterMap_type (l : List (String × Option Rat)) :
    ∀ a ∈ l.filterMap temp_alert_of, a.alert_type = "temperature_high" := by
  intro a ha
  obtain ⟨e, _, hae⟩ := List.mem_filterMap.mp ha
  obtain ⟨n, c⟩ := e
  cases c with
  | none => simp [temp_alert_of] at hae
  | some v =>
    by_cases hv : v ≠ 0 ∧ 80 < v
    · simp only [temp_alert_of, if_pos hv, Option.some.injEq] at hae
      rw [← hae]
    · simp [temp_alert_of, hv] at hae

/-- The number of temperature alerts equals the number of breaching
entries. -/
theorem countP_temp_hits (l : List (String × Option Rat)) :
    (l.filterMap temp_alert_of).countP (fun a => a.alert_type == "temperature_high") =
      l.countP temp_breach := by
  induction l with
  | nil => rfl
  | cons e rest ih =>
    obtain ⟨n, c⟩ := e
    cases c with
    | none => simp [List.filterMap_cons, temp_alert_of, List.countP_cons, temp_breach, ih]
    | some v =>
      by_cases hv : v ≠ 0 ∧ 80 < v
      · simp [List.filterMap_cons, temp_alert_of, hv, List.countP_cons, temp_breach, ih]
      · simp [List.filterMap_cons, temp_alert_of, hv, List.countP_cons, temp_breach, ih]

/-- Temperature alerts contribute nothing to the count of any other alert
type. -/
theorem countP_temp_other (l : List (String × Option Rat)) (T : String)
    (hT : ¬ T = "temperature_high") :
    (l.filterMap temp_alert_of).countP (fun a => a.alert_type == T) = 0 := by
  rw [List.countP_eq_zero]
  intro a ha
  have h := temp_filterMap_type l a ha
  simp only [h, beq_iff_eq]
  exact fun hh => hT hh.symm

/-- Counting over a conditional singleton. -/
theorem countP_cond_singleton (c : Prop) [Decidable c] (x : SystemAlert)
    (p : SystemAlert → Bool) :
    (if c then [x] else []).countP p = if c then (if p x then 1 else 0) else 0 := by
  split <;> simp [List.countP_cons]

/-- C4 (confirmed): one `check_system_health` tick appends its alerts to the
existing list (nothing is deduplicated or removed), and the appended batch
contains exactly one alert of the matching type per breached metric — one
`cpu_high`, `memory_high`, `disk_high`, `process_count_high` alert iff that
metric breaches its threshold, and one `temperature_high` alert per
breaching sensor entry. -/
theorem c4_alerts_per_breach (s : HealthSample) (alerts : List SystemAlert) :
    ∃ fresh : List SystemAlert,
      check_system_health s alerts = alerts ++ fresh ∧
      fresh.countP (fun a => a.alert_type == "cpu_high") =
        (if 80 < s.cpu_percent then 1 else 0) ∧
      fresh.countP (fun a => a.alert_type == "memory_high") =
        (if 85 < s.memory_percent then 1 else 0) ∧
      fresh.countP (fun a => a.alert_type == "disk_high") =
        (if 90 < disk_percent s then 1 else 0) ∧
      fresh.countP (fun a => a.alert_type == "temperature_high") =
        s.temps.countP temp_breach ∧
      fresh.countP (fun a => a.alert_type == "process_count_high") =
        (if 1000 < s.process_count then 1 else 0) := by
  refine ⟨(if 80 < s.cpu_percent then
      [⟨"cpu_high", if s.cpu_percent < 95 then "high" else "critical", s.cpu_percent, 80⟩]
    else []) ++
    (if 85 < s.memory_percent then
      [⟨"memory_high", if s.memory_percent < 95 then "high" else "critical",
        s.memory_percent, 85⟩]
    else []) ++
    (if 90 < disk_percent s then
      [⟨"disk_high", if disk_percent s < 95 then "high" else "critical",
        disk_percent s, 90⟩]
    else []) ++
    s.temps.filterMap temp_alert_of ++
    (if 1000 < s.process_count then
      [⟨"process_count_high", "medium", (s.process_count : Rat), 1000⟩]
    else []), ?_, ?_, ?_, ?_, ?_, ?_⟩
  · simp only [check_system_health, create_alert, cond_append, temp_scan_eq]
    simp [List.append_assoc]
  · simp only [List.countP_append, countP_cond_singleton,
      countP_temp_other s.temps "cpu_high" (by simp)]
    simp
  · simp only [List.countP_append, countP_cond_singleton,
      countP_temp_other s.temps "memory_high" (by simp)]
    simp
  · simp only [List.countP_append, countP_cond_singleton,
      countP_temp_other s.temps "disk_high" (by simp)]
    simp
  · simp only [List.countP_append, countP_cond_singleton, countP_temp_hits]
    simp
  · simp only [List.countP_append, countP_cond_singleton,
      countP_temp_other s.temps "process_count_high" (by simp)]
    simp
